import Mathlib

/-!
Shallow embedding of the employee CRUD service:
`validators.py`, `employees_manager.py`, the SQLite gateway state of
`database.py`, and the `Employee` entity of `models.py`.

Dynamic (Python) values that can appear in a request mapping are modelled by
`Value`; an absent key is `Option.none` at the field's slot of `Input`.
Machine floats (`REAL` column, `float(...)`) are modelled by `ℚ`.
-/

set_option autoImplicit false

namespace Crud

/-- A dynamically typed value in an input mapping: a string, a number
(`int`/`float` collapsed to `ℚ`), or Python `None`. -/
inductive Value where
  | str (s : String)
  | num (q : ℚ)
  | none
deriving DecidableEq, Repr

/-- The five recognized keys of an employee request mapping; an absent key is
`Option.none`.  (`validators.py` and `employees_manager.py` only ever read
these five keys.) -/
structure Input where
  first_name : Option Value
  last_name : Option Value
  email : Option Value
  position : Option Value
  salary : Option Value
deriving DecidableEq, Repr

/-- Python truthiness (`not value`) on the values that can occur here:
`None`, `""` and `0` are falsy. -/
def pyTruthy : Value → Bool
  | .str s => s ≠ ""
  | .num q => q ≠ 0
  | .none => false

/-- Whitespace test used by `str.strip()`. -/
def isSpaceChar (c : Char) : Bool := c.isWhitespace

/-- Python `str.strip()` on a character list: drop whitespace from both ends. -/
def stripList (l : List Char) : List Char :=
  ((l.dropWhile isSpaceChar).reverse.dropWhile isSpaceChar).reverse

/-- Python `str.strip()`. -/
def pyStripStr (s : String) : String := ⟨stripList s.data⟩

/-- Split a character list at the first character satisfying `p`,
returning the parts before and after it. -/
def splitAtP (p : Char → Bool) : List Char → Option (List Char × List Char)
  | [] => Option.none
  | c :: cs =>
    if p c then some ([], cs)
    else match splitAtP p cs with
      | Option.none => Option.none
      | some (a, b) => some (c :: a, b)

/-- Character class `[a-zA-Z0-9._%+-]` (local part of the email pattern). -/
def localChar (c : Char) : Bool :=
  c.isAlpha || c.isDigit || c = '.' || c = '_' || c = '%' || c = '+' || c = '-'

/-- Character class `[a-zA-Z0-9.-]` (domain part of the email pattern). -/
def domainChar (c : Char) : Bool :=
  c.isAlpha || c.isDigit || c = '.' || c = '-'

/-- Full match of `[a-zA-Z0-9.-]+\.[a-zA-Z]\x7b2,\x7d` against a character
list: split at the last dot, everything before it is a nonempty run of
`domainChar`, everything after it is two or more letters. -/
def domainMatch (l : List Char) : Bool :=
  match splitAtP (fun c => c = '.') l.reverse with
  | Option.none => false
  | some (vRev, uRev) =>
    let v := vRev.reverse
    let u := uRev.reverse
    !u.isEmpty && u.all domainChar && decide (2 ≤ v.length) && v.all Char.isAlpha

/-- Full match of the email pattern
`[a-zA-Z0-9._%+-]+@[a-zA-Z0-9.-]+\.[a-zA-Z]\x7b2,\x7d` against a character
list.  `@` occurs in neither character class, so the separator is the first
`@` of the string. -/
def emailMatchList (l : List Char) : Bool :=
  match splitAtP (fun c => c = '@') l with
  | Option.none => false
  | some (loc, dom) => !loc.isEmpty && loc.all localChar && domainMatch dom

/-- Semantics of `re.match(pattern, s)` for the anchored email pattern: the whole string
matches, or — because `$` also matches before a final newline — the string
minus a trailing newline matches. -/
def reMatchEmail (s : String) : Bool :=
  emailMatchList s.data ||
    (match s.data.getLast? with
     | some c => c = '\n' && emailMatchList s.data.dropLast
     | Option.none => false)

/-- Digits of a numeral to a natural number. -/
def digitsToNat (l : List Char) : Nat :=
  l.foldl (fun n c => 10 * n + (c.toNat - '0'.toNat)) 0

/-- All characters are ASCII digits. -/
def allDigits (l : List Char) : Bool := l.all Char.isDigit

/-- Signed decimal exponent (`e` suffix of a float literal). -/
def parseExp (l : List Char) : Option Int :=
  match l with
  | '+' :: r => if r ≠ [] && allDigits r then some (digitsToNat r : Int) else Option.none
  | '-' :: r => if r ≠ [] && allDigits r then some (-(digitsToNat r : Int)) else Option.none
  | _ => if l ≠ [] && allDigits l then some (digitsToNat l : Int) else Option.none

/-- Unsigned mantissa: `digits`, `digits.digits`, `.digits` or `digits.` -/
def parseMantissa (l : List Char) : Option ℚ :=
  match splitAtP (fun c => c = '.') l with
  | Option.none =>
    if l ≠ [] && allDigits l then some (digitsToNat l : ℚ) else Option.none
  | some (ip, fp) =>
    if (ip ≠ [] || fp ≠ []) && allDigits ip && allDigits fp then
      some ((digitsToNat ip : ℚ) + (digitsToNat fp : ℚ) / (10 : ℚ) ^ fp.length)
    else Option.none

/-- Python `float(str)` on a character list: surrounding whitespace is
ignored, then an optional sign, a decimal mantissa and an optional
`e`/`E` exponent. -/
def parseFloatChars (l : List Char) : Option ℚ :=
  let l := stripList l
  let (sign, l) : ℚ × List Char :=
    match l with
    | '+' :: r => (1, r)
    | '-' :: r => (-1, r)
    | _ => (1, l)
  match splitAtP (fun c => c = 'e' || c = 'E') l with
  | Option.none =>
    match parseMantissa l with
    | some m => some (sign * m)
    | Option.none => Option.none
  | some (mant, expPart) =>
    match parseMantissa mant, parseExp expPart with
    | some m, some e =>
      some (if 0 ≤ e then sign * m * (10 : ℚ) ^ e.toNat
            else sign * m / (10 : ℚ) ^ (-e).toNat)
    | _, _ => Option.none

/-- Python `float(value)`: numbers pass through, strings are parsed,
`None` raises `TypeError` (modelled as `Option.none`). -/
def pyFloat : Value → Option ℚ
  | .num q => some q
  | .str s => parseFloatChars s.data
  | .none => Option.none

/-! ### validators.py -/

/-- Embedding of `validate_email` of `validators.py`: falsy or non-string values report
"Email is required"; otherwise the anchored regex decides. -/
def validate_email : Value → Bool × String
  | .str s =>
    if s = "" then (false, "Email is required")
    else if reMatchEmail s then (true, "")
    else (false, "Email format is invalid")
  | _ => (false, "Email is required")

/-- Embedding of `validate_salary` of `validators.py`: `float(salary)` then positivity;
an unconvertible value reports "Salary must be a valid number". -/
def validate_salary (salary : Value) : Bool × String :=
  match pyFloat salary with
  | some q => if q ≤ 0 then (false, "Salary must be greater than 0") else (true, "")
  | Option.none => (false, "Salary must be a valid number")

/-- Embedding of `validate_required_field` of `validators.py`:
`if not value or (isinstance(value, str) and not value.strip())`. -/
def validate_required_field (value : Option Value) (field_name : String) : Bool × String :=
  match value with
  | Option.none => (false, field_name ++ " is required")
  | some .none => (false, field_name ++ " is required")
  | some (.str s) =>
    if s = "" || pyStripStr s = "" then (false, field_name ++ " is required") else (true, "")
  | some (.num q) =>
    if q = 0 then (false, field_name ++ " is required") else (true, "")

/-- Assignment `errors[field] = error` on a Python dict, modelled as an association
list: replace the binding in place if the key exists, else append. -/
def dinsert (m : List (String × String)) (k v : String) : List (String × String) :=
  match m with
  | [] => [(k, v)]
  | (k1, v1) :: rest => if k1 = k then (k, v) :: rest else (k1, v1) :: dinsert rest k v

/-- Record a failed check: `if not is_valid: errors[field] = error`. -/
def addErr (m : List (String × String)) (field : String) (res : Bool × String) :
    List (String × String) :=
  if res.1 then m else dinsert m field res.2

/-- The email-shape stage: `if "email" in data and data["email"]:` then
record `validate_email`'s verdict. -/
def emailCheck (m : List (String × String)) (o : Option Value) : List (String × String) :=
  match o with
  | some v => if pyTruthy v then addErr m "email" (validate_email v) else m
  | Option.none => m

/-- The salary stage: `if "salary" in data and data["salary"] is not None:`
then record `validate_salary`'s verdict. -/
def salaryCheck (m : List (String × String)) (o : Option Value) : List (String × String) :=
  match o with
  | some v => if v ≠ Value.none then addErr m "salary" (validate_salary v) else m
  | Option.none => m

/-- The presence stage of `validate_employee_data`: the five required-field
checks, recorded in the dict order of `required_fields`. -/
def presenceErrors (d : Input) : List (String × String) :=
  addErr (addErr (addErr (addErr (addErr [] "first_name"
    (validate_required_field d.first_name "First Name")) "last_name"
    (validate_required_field d.last_name "Last Name")) "email"
    (validate_required_field d.email "Email")) "position"
    (validate_required_field d.position "Position")) "salary"
    (validate_required_field d.salary "Salary")

/-- Embedding of `validate_employee_data` of `validators.py`: the five presence checks in
dict order, then the email-shape stage, then the salary stage; valid iff the
error dictionary is empty. -/
def validate_employee_data (d : Input) : Bool × List (String × String) :=
  ((salaryCheck (emailCheck (presenceErrors d) d.email) d.salary).isEmpty,
   salaryCheck (emailCheck (presenceErrors d) d.email) d.salary)

/-! ### database.py / models.py -/

/-- A persisted row of the `employees` table (schema of
`Database._init_schema`): every column is populated, `id` is the
auto-increment key, `created_at` the stored timestamp text. -/
structure Row where
  id : Nat
  first_name : String
  last_name : String
  email : String
  position : String
  salary : ℚ
  created_at : String
deriving DecidableEq, Repr

/-- The gateway state: the table contents, the next auto-increment id
(SQLite never reuses ids), and the clock value `CURRENT_TIMESTAMP` would
store on the next insert. -/
structure DBState where
  rows : List Row
  nextId : Nat
  now : String
deriving DecidableEq, Repr

/-- The `Employee` dataclass of `models.py`: `id` and `created_at` are
optional, absent before persistence. -/
structure Employee where
  first_name : String
  last_name : String
  email : String
  position : String
  salary : ℚ
  id : Option Nat
  created_at : Option String
deriving DecidableEq, Repr

/-- Conversion `Employee.from_dict` applied to a row mapping returned by the gateway. -/
def Employee.fromRow (r : Row) : Employee :=
  ⟨r.first_name, r.last_name, r.email, r.position, r.salary, some r.id, some r.created_at⟩

/-! ### employees_manager.py -/

/-- Outcomes of a service call other than success: the three domain
exceptions, `typeError` for a Python-level coercion failure
(`AttributeError` from `.strip()` on a non-string, `KeyError`) escaping
the service, and `storage` for a gateway failure propagated unmodified —
in particular `sqlite3.IntegrityError` when a write violates the schema's
`email TEXT NOT NULL UNIQUE` constraint of `Database._init_schema`. -/
inductive Err where
  | validation (errors : List (String × String))
  | notFound (msg : String)
  | unique (errors : List (String × String))
  | typeError
  | storage
deriving DecidableEq, Repr

/-- SQL `email = ?` with a dynamically typed parameter against a TEXT
column: only a string parameter can equal a stored text. -/
def sqlEqVal (v : Value) (s : String) : Bool :=
  match v with
  | .str t => t = s
  | _ => false

/-- Python `!=` between a request value and a stored string. -/
def pyNeqStr (v : Value) (s : String) : Bool :=
  match v with
  | .str t => t ≠ s
  | _ => true

/-- Python `str(value)` as used in the duplicate-email message. -/
def pyStr : Value → String
  | .str s => s
  | .num q => toString q
  | .none => "None"

/-- Trimming `data[k].strip()` for a required key: a present string strips, anything
else (absent key, number, `None`) raises. -/
def stripField : Option Value → Option String
  | some (.str s) => some (pyStripStr s)
  | _ => Option.none

/-- Conversion `float(data[k])` for a required key. -/
def floatField : Option Value → Option ℚ
  | some v => pyFloat v
  | Option.none => Option.none

/-- Embedding of `get_employee_by_id`: `SELECT * WHERE id = ?`, `NotFoundError` when no
row matches. -/
def get_employee_by_id (employee_id : Nat) (st : DBState) : Except Err Employee × DBState :=
  match st.rows.find? (fun r => r.id = employee_id) with
  | some r => (.ok (Employee.fromRow r), st)
  | Option.none =>
    (.error (.notFound ("Employee with id " ++ toString employee_id ++ " not found")), st)

/-- Embedding of `create_employee`: validate, pre-check email uniqueness with the raw
request value, insert the trimmed fields, re-fetch by the new id.  The
insert itself enforces the schema's UNIQUE(email) on the stripped value:
a collision the raw pre-check missed surfaces as `sqlite3.IntegrityError`
(`Err.storage`) and nothing is written. -/
def create_employee (data : Input) (st : DBState) : Except Err Employee × DBState :=
  let v := validate_employee_data data
  if !v.1 then (.error (.validation v.2), st)
  else
    match data.email with
    | Option.none => (.error .typeError, st)
    | some ev =>
      match st.rows.find? (fun r => sqlEqVal ev r.email) with
      | some _ =>
        (.error (.unique [("email", "Email '" ++ pyStr ev ++ "' already exists")]), st)
      | Option.none =>
        match stripField data.first_name, stripField data.last_name, stripField data.email,
              stripField data.position, floatField data.salary with
        | some fn, some ln, some em, some pos, some sal =>
          if st.rows.any (fun r => r.email = em) then (.error .storage, st)
          else
            let row : Row := ⟨st.nextId, fn, ln, em, pos, sal, st.now⟩
            let st2 : DBState := { st with rows := st.rows ++ [row], nextId := st.nextId + 1 }
            get_employee_by_id st.nextId st2
        | _, _, _, _, _ => (.error .typeError, st)

/-- Insertion (by ascending id) into an id-sorted row list. -/
def insertRow (r : Row) : List Row → List Row
  | [] => [r]
  | x :: xs => if r.id ≤ x.id then r :: x :: xs else x :: insertRow r xs

/-- Sorting `ORDER BY id`. -/
def sortRows : List Row → List Row
  | [] => []
  | x :: xs => insertRow x (sortRows xs)

/-- Embedding of `get_all_employees`: `SELECT * ORDER BY id LIMIT ? OFFSET ?`.  SQLite
treats a negative offset as 0 and a negative limit as no limit. -/
def get_all_employees (limit offset : Int) (st : DBState) : List Employee :=
  let sorted := sortRows st.rows
  let page :=
    if limit < 0 then sorted.drop offset.toNat
    else (sorted.drop offset.toNat).take limit.toNat
  page.map Employee.fromRow

/-- An optional text-field update: `none` when the key is absent (column
untouched), `some (some s)` the stripped value, failure when the present
value is not a string. -/
def stripUpd : Option Value → Option (Option String)
  | Option.none => some Option.none
  | some (.str s) => some (some (pyStripStr s))
  | some _ => Option.none

/-- An optional salary update, via `float(...)`. -/
def floatUpd : Option Value → Option (Option ℚ)
  | Option.none => some Option.none
  | some v =>
    match pyFloat v with
    | some q => some (some q)
    | Option.none => Option.none

/-- Embedding of `update_employee`: fetch, merge the request over the existing values,
validate the merged candidate, pre-check email uniqueness excluding the
current id when the email changes, write only the supplied columns,
re-fetch.  When the write touches the email column, the store enforces the
schema's UNIQUE(email) on the stripped value: a collision with another row
that the raw pre-check missed surfaces as `sqlite3.IntegrityError`
(`Err.storage`) and nothing is written.  (A present email makes the
update-field list nonempty, so the guard sits exactly where the UPDATE
statement runs.) -/
def update_employee (employee_id : Nat) (data : Input) (st : DBState) :
    Except Err Employee × DBState :=
  match (get_employee_by_id employee_id st).1 with
  | .error e => (.error e, st)
  | .ok existing =>
    let update_data : Input :=
      ⟨some (data.first_name.getD (.str existing.first_name)),
       some (data.last_name.getD (.str existing.last_name)),
       some (data.email.getD (.str existing.email)),
       some (data.position.getD (.str existing.position)),
       some (data.salary.getD (.num existing.salary))⟩
    let v := validate_employee_data update_data
    if !v.1 then (.error (.validation v.2), st)
    else
      let dup : Option Err :=
        match data.email with
        | some ev =>
          if pyNeqStr ev existing.email then
            match st.rows.find? (fun r => sqlEqVal ev r.email && r.id != employee_id) with
            | some _ => some (.unique [("email", "Email '" ++ pyStr ev ++ "' already exists")])
            | Option.none => Option.none
          else Option.none
        | Option.none => Option.none
      match dup with
      | some e => (.error e, st)
      | Option.none =>
        match stripUpd data.first_name, stripUpd data.last_name, stripUpd data.email,
              stripUpd data.position, floatUpd data.salary with
        | some fn, some ln, some em, some pos, some sal =>
          let conflict :=
            match em with
            | some em2 => st.rows.any (fun r => r.email = em2 && r.id != employee_id)
            | Option.none => false
          if conflict then (.error .storage, st)
          else
            let anyField := data.first_name.isSome || data.last_name.isSome ||
                            data.email.isSome || data.position.isSome || data.salary.isSome
            let newRows :=
              if anyField then
                st.rows.map (fun r =>
                  if r.id = employee_id then
                    { r with first_name := fn.getD r.first_name,
                             last_name := ln.getD r.last_name,
                             email := em.getD r.email,
                             position := pos.getD r.position,
                             salary := sal.getD r.salary }
                  else r)
              else st.rows
            get_employee_by_id employee_id { st with rows := newRows }
        | _, _, _, _, _ => (.error .typeError, st)

/-- The confirmation mapping returned by `delete_employee`. -/
structure DeleteResult where
  id : Nat
  message : String
deriving DecidableEq, Repr

/-- Embedding of `delete_employee`: fetch (NotFoundError when absent), `DELETE WHERE
id = ?`, return the confirmation naming the deleted employee. -/
def delete_employee (employee_id : Nat) (st : DBState) : Except Err DeleteResult × DBState :=
  match (get_employee_by_id employee_id st).1 with
  | .error e => (.error e, st)
  | .ok employee =>
    (.ok ⟨employee_id,
          "Employee " ++ employee.first_name ++ " " ++ employee.last_name ++
            " deleted successfully"⟩,
     { st with rows := st.rows.filter (fun r => r.id != employee_id) })

/-! ### Well-formedness of a reachable store -/

/-- The validation facts every persisted row satisfies (every write is
gated by `validate_employee_data` and stores trimmed values). -/
def RowValid (r : Row) : Prop :=
  r.first_name ≠ "" ∧ pyStripStr r.first_name ≠ "" ∧
  r.last_name ≠ "" ∧ pyStripStr r.last_name ≠ "" ∧
  r.position ≠ "" ∧ pyStripStr r.position ≠ "" ∧
  r.email ≠ "" ∧ pyStripStr r.email ≠ "" ∧ pyStripStr r.email = r.email ∧
  reMatchEmail r.email = true ∧
  0 < r.salary

instance (r : Row) : Decidable (RowValid r) := by
  unfold RowValid; infer_instance

/-- Invariants of a reachable gateway state: distinct ids below the
auto-increment counter, distinct emails, valid rows. -/
def WF (st : DBState) : Prop :=
  (st.rows.map Row.id).Nodup ∧
  (st.rows.map Row.email).Nodup ∧
  (∀ r ∈ st.rows, r.id < st.nextId) ∧
  (∀ r ∈ st.rows, RowValid r)

instance (st : DBState) : Decidable (WF st) := by
  unfold WF; infer_instance

/-! ### Lemmas about the error dictionary -/

theorem dinsert_ne_nil (m : List (String × String)) (k v : String) : dinsert m k v ≠ [] := by
  cases m with
  | nil => simp [dinsert]
  | cons p rest =>
    obtain ⟨k1, v1⟩ := p
    by_cases h : k1 = k <;> simp [dinsert, h]

theorem beq_false_of_ne {a b : String} (h : a ≠ b) : (a == b) = false :=
  beq_eq_false_iff_ne.mpr h

theorem lookup_dinsert_self (m : List (String × String)) (k v : String) :
    (dinsert m k v).lookup k = some v := by
  induction m with
  | nil => simp [dinsert]
  | cons p rest ih =>
    obtain ⟨k1, v1⟩ := p
    by_cases h : k1 = k
    · simp [dinsert, h]
    · simp only [dinsert, if_neg h, List.lookup, beq_false_of_ne (Ne.symm h), ih]

theorem lookup_dinsert_ne {k k1 : String} (h : k1 ≠ k) (m : List (String × String))
    (v : String) : (dinsert m k v).lookup k1 = m.lookup k1 := by
  induction m with
  | nil => simp [dinsert, List.lookup, beq_false_of_ne h]
  | cons p rest ih =>
    obtain ⟨k2, v2⟩ := p
    by_cases h2 : k2 = k
    · subst h2
      simp [dinsert, List.lookup, beq_false_of_ne h]
    · simp only [dinsert, if_neg h2, List.lookup, ih]

theorem keys_dinsert (m : List (String × String)) (k v : String) :
    (dinsert m k v).map Prod.fst =
      if k ∈ m.map Prod.fst then m.map Prod.fst else m.map Prod.fst ++ [k] := by
  induction m with
  | nil => simp [dinsert]
  | cons p rest ih =>
    obtain ⟨k1, v1⟩ := p
    by_cases h : k1 = k
    · simp [dinsert, h]
    · simp only [dinsert, if_neg h, List.map_cons, ih]
      by_cases hm : k ∈ rest.map Prod.fst
      · simp [hm, Ne.symm h]
      · simp [hm, Ne.symm h]

theorem keys_nodup_dinsert {m : List (String × String)} (h : (m.map Prod.fst).Nodup)
    (k v : String) : ((dinsert m k v).map Prod.fst).Nodup := by
  rw [keys_dinsert]
  by_cases hm : k ∈ m.map Prod.fst
  · simpa [hm] using h
  · rw [if_neg hm]
    refine List.Nodup.append h (List.nodup_singleton k) ?_
    intro a ha hk
    rw [List.mem_singleton] at hk
    exact hm (hk ▸ ha)

theorem lookup_of_mem_keys_nodup {m : List (String × String)} {k x : String}
    (hn : (m.map Prod.fst).Nodup) (hm : (k, x) ∈ m) : m.lookup k = some x := by
  induction m with
  | nil => simp at hm
  | cons p rest ih =>
    obtain ⟨k1, v1⟩ := p
    simp only [List.map_cons, List.nodup_cons] at hn
    rcases List.mem_cons.mp hm with h | h
    · rw [Prod.mk.injEq] at h
      obtain ⟨rfl, rfl⟩ := h
      simp [List.lookup]
    · have hk : k1 ≠ k := by
        rintro rfl
        exact hn.1 (List.mem_map.mpr ⟨(k1, x), h, rfl⟩)
      simp only [List.lookup, beq_false_of_ne (Ne.symm hk), ih hn.2 h]

/-! ### Lemmas about the validation stages -/

theorem addErr_pass {res : Bool × String} (h : res.1 = true) (m : List (String × String))
    (f : String) : addErr m f res = m := by
  simp [addErr, h]

theorem addErr_fail {res : Bool × String} (h : res.1 = false) (m : List (String × String))
    (f : String) : addErr m f res = dinsert m f res.2 := by
  simp [addErr, h]

theorem addErr_ne_nil {m : List (String × String)} (h : m ≠ []) (f : String)
    (res : Bool × String) : addErr m f res ≠ [] := by
  unfold addErr
  split
  · exact h
  · exact dinsert_ne_nil m f res.2

theorem addErr_true (m : List (String × String)) (f s : String) :
    addErr m f (true, s) = m := by
  simp [addErr]

theorem addErr_ne_nil_of_fail {res : Bool × String} (h : res.1 = false)
    (m : List (String × String)) (f : String) : addErr m f res ≠ [] := by
  rw [addErr_fail h]
  exact dinsert_ne_nil m f res.2

theorem emailCheck_ne_nil {m : List (String × String)} (h : m ≠ []) (o : Option Value) :
    emailCheck m o ≠ [] := by
  unfold emailCheck
  match o with
  | Option.none => exact h
  | some v =>
    show (if pyTruthy v = true then addErr m "email" (validate_email v) else m) ≠ []
    by_cases ht : pyTruthy v
    · rw [if_pos ht]
      exact addErr_ne_nil h _ _
    · rw [if_neg ht]
      exact h

theorem salaryCheck_ne_nil {m : List (String × String)} (h : m ≠ []) (o : Option Value) :
    salaryCheck m o ≠ [] := by
  unfold salaryCheck
  match o with
  | Option.none => exact h
  | some v =>
    show (if v ≠ Value.none then addErr m "salary" (validate_salary v) else m) ≠ []
    by_cases ht : v ≠ Value.none
    · rw [if_pos ht]
      exact addErr_ne_nil h _ _
    · rw [if_neg ht]
      exact h

theorem salaryCheck_ne_nil_of_fail {v : Value} (hvn : v ≠ Value.none)
    (hc : (validate_salary v).1 = false) (m : List (String × String)) :
    salaryCheck m (some v) ≠ [] := by
  show (if v ≠ Value.none then addErr m "salary" (validate_salary v) else m) ≠ []
  rw [if_pos hvn]
  exact addErr_ne_nil_of_fail hc _ _

theorem keys_nodup_addErr {m : List (String × String)} (h : (m.map Prod.fst).Nodup)
    (f : String) (res : Bool × String) : ((addErr m f res).map Prod.fst).Nodup := by
  unfold addErr
  split
  · exact h
  · exact keys_nodup_dinsert h _ _

theorem keys_nodup_emailCheck {m : List (String × String)} (h : (m.map Prod.fst).Nodup)
    (o : Option Value) : ((emailCheck m o).map Prod.fst).Nodup := by
  unfold emailCheck
  match o with
  | Option.none => exact h
  | some v =>
    show (List.map Prod.fst
      (if pyTruthy v = true then addErr m "email" (validate_email v) else m)).Nodup
    by_cases ht : pyTruthy v
    · rw [if_pos ht]
      exact keys_nodup_addErr h _ _
    · rw [if_neg ht]
      exact h

theorem keys_nodup_salaryCheck {m : List (String × String)} (h : (m.map Prod.fst).Nodup)
    (o : Option Value) : ((salaryCheck m o).map Prod.fst).Nodup := by
  unfold salaryCheck
  match o with
  | Option.none => exact h
  | some v =>
    show (List.map Prod.fst
      (if v ≠ Value.none then addErr m "salary" (validate_salary v) else m)).Nodup
    by_cases ht : v ≠ Value.none
    · rw [if_pos ht]
      exact keys_nodup_addErr h _ _
    · rw [if_neg ht]
      exact h

theorem keys_nodup_presence (d : Input) :
    ((presenceErrors d).map Prod.fst).Nodup := by
  unfold presenceErrors
  exact keys_nodup_addErr (keys_nodup_addErr (keys_nodup_addErr (keys_nodup_addErr
    (keys_nodup_addErr (by simp) _ _) _ _) _ _) _ _) _ _

theorem keys_nodup_validate (d : Input) :
    ((validate_employee_data d).2.map Prod.fst).Nodup := by
  unfold validate_employee_data
  exact keys_nodup_salaryCheck (keys_nodup_emailCheck (keys_nodup_presence d) _) _

/-! ### Passing and failing forms of the individual checks -/

theorem vrf_str_pass {s : String} (h1 : s ≠ "") (h2 : pyStripStr s ≠ "") (lbl : String) :
    validate_required_field (some (.str s)) lbl = (true, "") := by
  simp [validate_required_field, h1, h2]

theorem vrf_num_pass {q : ℚ} (h : q ≠ 0) (lbl : String) :
    validate_required_field (some (.num q)) lbl = (true, "") := by
  simp [validate_required_field, h]

theorem validate_email_pass {s : String} (h1 : s ≠ "") (h2 : reMatchEmail s = true) :
    validate_email (.str s) = (true, "") := by
  simp [validate_email, h1, h2]

theorem validate_salary_num_pass {q : ℚ} (h : 0 < q) :
    validate_salary (.num q) = (true, "") := by
  simp [validate_salary, pyFloat, not_le.mpr h]

/-- All five fields pass every check, so validation returns no errors.
This is the shape taken by the merged candidate of a partial update over a
well-formed row. -/
theorem validate_merged_pass {fn ln em pos : String} {q : ℚ}
    (hfn1 : fn ≠ "") (hfn2 : pyStripStr fn ≠ "")
    (hln1 : ln ≠ "") (hln2 : pyStripStr ln ≠ "")
    (hem1 : em ≠ "") (hem2 : pyStripStr em ≠ "") (hem3 : reMatchEmail em = true)
    (hpos1 : pos ≠ "") (hpos2 : pyStripStr pos ≠ "")
    (hq : 0 < q) :
    validate_employee_data
      ⟨some (.str fn), some (.str ln), some (.str em), some (.str pos), some (.num q)⟩ =
      (true, []) := by
  unfold validate_employee_data presenceErrors
  rw [vrf_str_pass hfn1 hfn2, vrf_str_pass hln1 hln2, vrf_str_pass hem1 hem2,
      vrf_str_pass hpos1 hpos2, vrf_num_pass hq.ne']
  simp only [addErr_true]
  rw [show emailCheck [] (some (.str em)) = [] by
        simp [emailCheck, pyTruthy, hem1, validate_email_pass hem1 hem3, addErr_true],
      show salaryCheck [] (some (.num q)) = [] by
        simp [salaryCheck, validate_salary_num_pass hq, addErr_true]]
  rfl

/-- A verdict of `true` means the error dictionary came out empty, so every
individual check must have passed: extraction of the per-field facts used
by the service layer after `raise ValidationError` was not taken. -/
theorem validate_true_parts {d : Input} (h : (validate_employee_data d).1 = true) :
    (validate_required_field d.first_name "First Name").1 = true ∧
    (validate_required_field d.last_name "Last Name").1 = true ∧
    (validate_required_field d.email "Email").1 = true ∧
    (validate_required_field d.position "Position").1 = true ∧
    (validate_required_field d.salary "Salary").1 = true ∧
    (∀ v, d.salary = some v → v ≠ Value.none → (validate_salary v).1 = true) := by
  have hnil : salaryCheck (emailCheck (presenceErrors d) d.email) d.salary = [] := by
    unfold validate_employee_data at h
    simpa [List.isEmpty_iff] using h
  have hpres : presenceErrors d ≠ [] →
      salaryCheck (emailCheck (presenceErrors d) d.email) d.salary ≠ [] := by
    intro hne
    exact salaryCheck_ne_nil (emailCheck_ne_nil hne _) _
  constructor
  · by_contra hc
    rw [Bool.not_eq_true] at hc
    refine hpres ?_ hnil
    unfold presenceErrors
    exact addErr_ne_nil (addErr_ne_nil (addErr_ne_nil (addErr_ne_nil
      (addErr_ne_nil_of_fail hc [] "first_name") _ _) _ _) _ _) _ _
  constructor
  · by_contra hc
    rw [Bool.not_eq_true] at hc
    refine hpres ?_ hnil
    unfold presenceErrors
    exact addErr_ne_nil (addErr_ne_nil (addErr_ne_nil
      (addErr_ne_nil_of_fail hc _ "last_name") _ _) _ _) _ _
  constructor
  · by_contra hc
    rw [Bool.not_eq_true] at hc
    refine hpres ?_ hnil
    unfold presenceErrors
    exact addErr_ne_nil (addErr_ne_nil (addErr_ne_nil_of_fail hc _ "email") _ _) _ _
  constructor
  · by_contra hc
    rw [Bool.not_eq_true] at hc
    refine hpres ?_ hnil
    unfold presenceErrors
    exact addErr_ne_nil (addErr_ne_nil_of_fail hc _ "position") _ _
  constructor
  · by_contra hc
    rw [Bool.not_eq_true] at hc
    refine hpres ?_ hnil
    unfold presenceErrors
    exact addErr_ne_nil_of_fail hc _ "salary"
  · intro v hv hvn
    by_contra hc
    rw [Bool.not_eq_true] at hc
    rw [hv] at hnil
    exact salaryCheck_ne_nil_of_fail hvn hc _ hnil

/-- A passing presence check forces the value to be present. -/
theorem vrf_pass_isSome {o : Option Value} {lbl : String}
    (h : (validate_required_field o lbl).1 = true) : ∃ v, o = some v ∧ v ≠ Value.none := by
  match o with
  | Option.none => simp [validate_required_field] at h
  | some .none => simp [validate_required_field] at h
  | some (.str s) => exact ⟨.str s, rfl, by simp⟩
  | some (.num q) => exact ⟨.num q, rfl, by simp⟩

/-- A passing salary check yields a parsed numeric value. -/
theorem validate_salary_pass_float {v : Value} (h : (validate_salary v).1 = true) :
    ∃ q, pyFloat v = some q := by
  unfold validate_salary at h
  match hv : pyFloat v with
  | some q => exact ⟨q, rfl⟩
  | Option.none => rw [hv] at h; simp at h

/-! ### Blank strings never match the email pattern -/

theorem allSpace_of_strip_nil {l : List Char} (h : stripList l = []) :
    ∀ c ∈ l, isSpaceChar c = true := by
  unfold stripList at h
  rw [List.reverse_eq_nil_iff] at h
  have h2 : ∀ c ∈ (l.dropWhile isSpaceChar).reverse, isSpaceChar c = true :=
    List.dropWhile_eq_nil_iff.mp h
  have h3 : ∀ c ∈ l.dropWhile isSpaceChar, isSpaceChar c = true := by
    intro c hc
    exact h2 c (List.mem_reverse.mpr hc)
  intro c hc
  rw [← List.takeWhile_append_dropWhile (p := isSpaceChar) (l := l)] at hc
  rcases List.mem_append.mp hc with hc | hc
  · exact List.mem_takeWhile_imp hc
  · exact h3 c hc

theorem splitAtP_eq_none {p : Char → Bool} {l : List Char}
    (h : ∀ c ∈ l, p c = false) : splitAtP p l = Option.none := by
  induction l with
  | nil => rfl
  | cons c cs ih =>
    have hc : p c = false := h c (List.mem_cons_self c cs)
    have hcs := ih fun x hx => h x (List.mem_cons_of_mem c hx)
    simp [splitAtP, hc, hcs]

theorem emailMatchList_false_of_space {l : List Char}
    (h : ∀ c ∈ l, isSpaceChar c = true) : emailMatchList l = false := by
  have hno : ∀ c ∈ l, decide (c = '@') = false := by
    intro c hc
    have := h c hc
    by_contra hne
    rw [decide_eq_false_iff_not, not_not] at hne
    subst hne
    simp [isSpaceChar] at this
  unfold emailMatchList
  rw [splitAtP_eq_none hno]

theorem reMatchEmail_false_of_blank {s : String} (h : pyStripStr s = "") :
    reMatchEmail s = false := by
  have hl : stripList s.data = [] := congrArg String.data h
  have hsp := allSpace_of_strip_nil hl
  have h1 : emailMatchList s.data = false := emailMatchList_false_of_space hsp
  have h2 : emailMatchList s.data.dropLast = false :=
    emailMatchList_false_of_space fun c hc => hsp c ((List.dropLast_sublist s.data).mem hc)
  unfold reMatchEmail
  rw [h1]
  match hgl : s.data.getLast? with
  | Option.none => rfl
  | some c => simp [h2]

/-- The failing form of the email-shape check for a nonempty non-matching
string. -/
theorem validate_email_fmt {s : String} (h1 : s ≠ "") (h2 : reMatchEmail s = false) :
    validate_email (.str s) = (false, "Email format is invalid") := by
  simp [validate_email, h1, h2]

/-! ### Lookup of rows by id -/

theorem find_by_id {l : List Row} (h : (l.map Row.id).Nodup) {A : Row} (hA : A ∈ l) :
    l.find? (fun r => r.id = A.id) = some A := by
  induction l with
  | nil => simp at hA
  | cons x xs ih =>
    simp only [List.map_cons, List.nodup_cons] at h
    rcases List.mem_cons.mp hA with rfl | hA2
    · exact List.find?_cons_of_pos _ (by simp)
    · have hx : x.id ≠ A.id := by
        intro he
        exact h.1 (he ▸ List.mem_map.mpr ⟨A, hA2, rfl⟩)
      rw [List.find?_cons_of_neg _ (by simpa using hx)]
      exact ih h.2 hA2

theorem find?_map_of_id {g : Row → Row} (hg : ∀ r, (g r).id = r.id) (i : Nat)
    (l : List Row) :
    (l.map g).find? (fun r => r.id = i) = (l.find? (fun r => r.id = i)).map g := by
  induction l with
  | nil => rfl
  | cons x xs ih =>
    by_cases hx : x.id = i
    · rw [List.map_cons, List.find?_cons_of_pos _ (by simp [hg, hx]),
          List.find?_cons_of_pos _ (by simp [hx])]
      rfl
    · rw [List.map_cons, List.find?_cons_of_neg _ (by simp [hg, hx]),
          List.find?_cons_of_neg _ (by simp [hx]), ih]

theorem find?_append_right {p : Row → Bool} {l1 l2 : List Row}
    (h : l1.find? p = Option.none) : (l1 ++ l2).find? p = l2.find? p := by
  induction l1 with
  | nil => rfl
  | cons x xs ih =>
    rw [List.find?_cons] at h
    match hp : p x with
    | true => rw [hp] at h; simp at h
    | false =>
      rw [hp] at h
      rw [List.cons_append, List.find?_cons_of_neg _ (by simp [hp]), ih h]

/-! ### ORDER BY id: insertion sort -/

theorem insertRow_perm (r : Row) (l : List Row) : List.Perm (insertRow r l) (r :: l) := by
  induction l with
  | nil => rfl
  | cons x xs ih =>
    unfold insertRow
    by_cases h : r.id ≤ x.id
    · rw [if_pos h]
    · rw [if_neg h]
      exact List.Perm.trans (ih.cons x) (List.Perm.swap r x xs)

theorem sortRows_perm (l : List Row) : List.Perm (sortRows l) l := by
  induction l with
  | nil => rfl
  | cons x xs ih =>
    exact List.Perm.trans (insertRow_perm x (sortRows xs)) (ih.cons x)

theorem insertRow_sorted {l : List Row} (h : l.Pairwise (fun a b => a.id ≤ b.id))
    (r : Row) : (insertRow r l).Pairwise (fun a b => a.id ≤ b.id) := by
  induction l with
  | nil => simp [insertRow]
  | cons x xs ih =>
    rw [List.pairwise_cons] at h
    unfold insertRow
    by_cases hc : r.id ≤ x.id
    · rw [if_pos hc, List.pairwise_cons]
      refine ⟨?_, List.pairwise_cons.mpr h⟩
      intro b hb
      rcases List.mem_cons.mp hb with rfl | hb2
      · exact hc
      · exact le_trans hc (h.1 b hb2)
    · rw [if_neg hc, List.pairwise_cons]
      refine ⟨?_, ih h.2⟩
      intro b hb
      rcases List.mem_cons.mp ((insertRow_perm r xs).mem_iff.mp hb) with rfl | hb2
      · omega
      · exact h.1 b hb2

theorem sortRows_sorted (l : List Row) :
    (sortRows l).Pairwise (fun a b => a.id ≤ b.id) := by
  induction l with
  | nil => simp [sortRows]
  | cons x xs ih => exact insertRow_sorted ih x

theorem sortRows_length (l : List Row) : (sortRows l).length = l.length :=
  (sortRows_perm l).length_eq

/-! ### Rewriting forms of the email and salary stages -/

theorem emailCheck_pass {em : String} (h1 : em ≠ "") (h3 : reMatchEmail em = true)
    (m : List (String × String)) : emailCheck m (some (.str em)) = m := by
  simp [emailCheck, pyTruthy, h1, validate_email_pass h1 h3, addErr_true]

theorem emailCheck_some_fail {v : Value} {msg : String} (ht : pyTruthy v = true)
    (hres : validate_email v = (false, msg)) (m : List (String × String)) :
    emailCheck m (some v) = dinsert m "email" msg := by
  show (if pyTruthy v = true then addErr m "email" (validate_email v) else m) = _
  rw [if_pos ht, hres, addErr_fail rfl]

theorem salaryCheck_some_fail {v : Value} {msg : String} (hvn : v ≠ Value.none)
    (hres : validate_salary v = (false, msg)) (m : List (String × String)) :
    salaryCheck m (some v) = dinsert m "salary" msg := by
  show (if v ≠ Value.none then addErr m "salary" (validate_salary v) else m) = _
  rw [if_pos hvn, hres, addErr_fail rfl]

theorem salaryCheck_num_pass {q : ℚ} (h : 0 < q) (m : List (String × String)) :
    salaryCheck m (some (.num q)) = m := by
  show (if Value.num q ≠ Value.none then addErr m "salary" (validate_salary (.num q)) else m) = m
  rw [if_pos (by simp), validate_salary_num_pass h, addErr_true]

theorem lookup_addErr_ne {k f : String} (h : k ≠ f) (m : List (String × String))
    (res : Bool × String) : (addErr m f res).lookup k = m.lookup k := by
  unfold addErr
  split
  · rfl
  · exact lookup_dinsert_ne h m res.2

theorem lookup_salaryCheck_ne {k : String} (h : k ≠ "salary") (m : List (String × String))
    (o : Option Value) : (salaryCheck m o).lookup k = m.lookup k := by
  unfold salaryCheck
  match o with
  | Option.none => rfl
  | some v =>
    show ((if v ≠ Value.none then addErr m "salary" (validate_salary v) else m).lookup k) = _
    by_cases hv : v ≠ Value.none
    · rw [if_pos hv, lookup_addErr_ne h]
    · rw [if_neg hv]

/-! ### The claims -/

/-- C5: validation accumulates independent per-field errors.  With the four
other fields valid, a record missing `salary` entirely yields exactly the
presence error, and a record with the non-numeric salary string "abc"
yields exactly the numeric error. -/
theorem validate_salary_error_independence (fn ln em pos : String)
    (hfn1 : fn ≠ "") (hfn2 : pyStripStr fn ≠ "")
    (hln1 : ln ≠ "") (hln2 : pyStripStr ln ≠ "")
    (hem1 : em ≠ "") (hem2 : pyStripStr em ≠ "") (hem3 : reMatchEmail em = true)
    (hpos1 : pos ≠ "") (hpos2 : pyStripStr pos ≠ "") :
    validate_employee_data ⟨some (.str fn), some (.str ln), some (.str em),
        some (.str pos), Option.none⟩ = (false, [("salary", "Salary is required")]) ∧
    validate_employee_data ⟨some (.str fn), some (.str ln), some (.str em),
        some (.str pos), some (.str "abc")⟩ =
      (false, [("salary", "Salary must be a valid number")]) := by
  constructor
  · unfold validate_employee_data presenceErrors
    rw [vrf_str_pass hfn1 hfn2, vrf_str_pass hln1 hln2, vrf_str_pass hem1 hem2,
        vrf_str_pass hpos1 hpos2]
    simp only [addErr_true]
    rw [show validate_required_field Option.none "Salary" = (false, "Salary is required")
          from rfl, addErr_fail rfl, emailCheck_pass hem1 hem3]
    rfl
  · unfold validate_employee_data presenceErrors
    rw [vrf_str_pass hfn1 hfn2, vrf_str_pass hln1 hln2, vrf_str_pass hem1 hem2,
        vrf_str_pass hpos1 hpos2,
        show validate_required_field (some (.str "abc")) "Salary" = (true, "") from by decide]
    simp only [addErr_true]
    rw [emailCheck_pass hem1 hem3,
        salaryCheck_some_fail (by decide)
          (by decide : validate_salary (.str "abc") = (false, "Salary must be a valid number"))]
    rfl

/-- Witness for C5 at a concrete record. -/
theorem validate_salary_error_independence_witness :
    reMatchEmail "a@b.co" = true ∧
    validate_employee_data ⟨some (.str "A"), some (.str "B"), some (.str "a@b.co"),
        some (.str "Eng"), Option.none⟩ = (false, [("salary", "Salary is required")]) ∧
    validate_employee_data ⟨some (.str "A"), some (.str "B"), some (.str "a@b.co"),
        some (.str "Eng"), some (.str "abc")⟩ =
      (false, [("salary", "Salary must be a valid number")]) :=
  ⟨by decide,
   validate_salary_error_independence "A" "B" "a@b.co" "Eng" (by decide) (by decide)
     (by decide) (by decide) (by decide) (by decide) (by decide) (by decide) (by decide)⟩

/-- C10: a salary equal to numeric zero fails the presence check, but the
later salary check overwrites the same key, so the reported error is
"Salary must be greater than 0" and "Salary is required" does not survive. -/
theorem salary_zero_error_overwrite (d : Input) (h : d.salary = some (.num 0)) :
    (validate_employee_data d).1 = false ∧
    (validate_employee_data d).2.lookup "salary" = some "Salary must be greater than 0" ∧
    ("salary", "Salary is required") ∉ (validate_employee_data d).2 := by
  have h2 : (validate_employee_data d).2 =
      dinsert (emailCheck (presenceErrors d) d.email) "salary"
        "Salary must be greater than 0" := by
    unfold validate_employee_data
    rw [h, salaryCheck_some_fail (by decide)
          (by decide : validate_salary (.num 0) = (false, "Salary must be greater than 0"))]
  have hlk : (validate_employee_data d).2.lookup "salary" =
      some "Salary must be greater than 0" := by
    rw [h2]
    exact lookup_dinsert_self _ _ _
  refine ⟨?_, hlk, ?_⟩
  · have hne : (validate_employee_data d).2 ≠ [] := by
      intro hc
      rw [hc] at hlk
      simp [List.lookup] at hlk
    unfold validate_employee_data at hne ⊢
    match hl : salaryCheck (emailCheck (presenceErrors d) d.email) d.salary with
    | [] => rw [hl] at hne; simp at hne
    | p :: rest => rfl
  · intro hmem
    have := lookup_of_mem_keys_nodup (keys_nodup_validate d) hmem
    rw [hlk] at this
    simp at this

/-- Witness for C10 at a concrete record. -/
theorem salary_zero_error_overwrite_witness :
    (⟨some (.str "A"), some (.str "B"), some (.str "a@b.co"), some (.str "Eng"),
        some (.num 0)⟩ : Input).salary = some (.num 0) ∧
    (validate_employee_data ⟨some (.str "A"), some (.str "B"), some (.str "a@b.co"),
        some (.str "Eng"), some (.num 0)⟩).1 = false ∧
    (validate_employee_data ⟨some (.str "A"), some (.str "B"), some (.str "a@b.co"),
        some (.str "Eng"), some (.num 0)⟩).2.lookup "salary" =
      some "Salary must be greater than 0" ∧
    ("salary", "Salary is required") ∉
      (validate_employee_data ⟨some (.str "A"), some (.str "B"), some (.str "a@b.co"),
        some (.str "Eng"), some (.num 0)⟩).2 :=
  ⟨rfl, salary_zero_error_overwrite _ rfl⟩

/-- C3, counterexample: a whitespace-only email is blank after trimming but
truthy as given, so the shape check still runs and overwrites the presence
error — the reported message is "Email format is invalid", not the
"Email is required" the claim predicts. -/
theorem email_blank_counterexample :
    validate_employee_data ⟨some (.str "A"), some (.str "B"), some (.str "   "),
        some (.str "Eng"), some (.num 50000)⟩ =
      (false, [("email", "Email format is invalid")]) ∧
    ("email", "Email is required") ∉
      (validate_employee_data ⟨some (.str "A"), some (.str "B"), some (.str "   "),
        some (.str "Eng"), some (.num 50000)⟩).2 :=
  ⟨by decide, by decide⟩

/-- C3, amended: for an email value that is a nonempty string blank after
trimming, the shape check is not skipped (the code guards on Python
truthiness of the raw value, not on blankness after trimming); the shape
check fails on the blank string and overwrites the presence error under the
`email` key, so validation reports "Email format is invalid" there — never
"Email is required".  The check is skipped (and the presence error kept)
only when the email is absent or the empty string. -/
theorem email_blank_reports_format_error (d : Input) (s : String)
    (he : d.email = some (.str s)) (hne : s ≠ "") (hblank : pyStripStr s = "") :
    (validate_employee_data d).1 = false ∧
    (validate_employee_data d).2.lookup "email" = some "Email format is invalid" ∧
    ("email", "Email is required") ∉ (validate_employee_data d).2 := by
  have hfmt : reMatchEmail s = false := reMatchEmail_false_of_blank hblank
  have h2 : (validate_employee_data d).2 =
      salaryCheck (dinsert (presenceErrors d) "email" "Email format is invalid")
        d.salary := by
    unfold validate_employee_data
    rw [he, emailCheck_some_fail (by simp [pyTruthy, hne]) (validate_email_fmt hne hfmt)]
  have hlk : (validate_employee_data d).2.lookup "email" =
      some "Email format is invalid" := by
    rw [h2, lookup_salaryCheck_ne (by decide), lookup_dinsert_self]
  refine ⟨?_, hlk, ?_⟩
  · have hne2 : (validate_employee_data d).2 ≠ [] := by
      intro hc
      rw [hc] at hlk
      simp [List.lookup] at hlk
    unfold validate_employee_data at hne2 ⊢
    match hl : salaryCheck (emailCheck (presenceErrors d) d.email) d.salary with
    | [] => rw [hl] at hne2; simp at hne2
    | p :: rest => rfl
  · intro hmem
    have := lookup_of_mem_keys_nodup (keys_nodup_validate d) hmem
    rw [hlk] at this
    simp at this

/-- Witness for the amended C3 at a concrete record. -/
theorem email_blank_reports_format_error_witness :
    pyStripStr "   " = "" ∧
    (validate_employee_data ⟨some (.str "A"), some (.str "B"), some (.str "   "),
        some (.str "Eng"), some (.num 50000)⟩).1 = false ∧
    (validate_employee_data ⟨some (.str "A"), some (.str "B"), some (.str "   "),
        some (.str "Eng"), some (.num 50000)⟩).2.lookup "email" =
      some "Email format is invalid" ∧
    ("email", "Email is required") ∉
      (validate_employee_data ⟨some (.str "A"), some (.str "B"), some (.str "   "),
        some (.str "Eng"), some (.num 50000)⟩).2 :=
  ⟨by decide, email_blank_reports_format_error _ "   " rfl (by decide) (by decide)⟩

/-- C1: creating an employee whose (otherwise valid) request carries an
email equal to a persisted employee's email fails with
UniqueConstraintError keyed `email`, and the store — in particular the set
and count of persisted employees — is unchanged. -/
theorem create_duplicate_email_unique_error (d : Input) (st : DBState) (e : String)
    (hv : (validate_employee_data d).1 = true) (he : d.email = some (.str e))
    (r0 : Row) (hr0 : r0 ∈ st.rows) (hre : r0.email = e) :
    create_employee d st =
      (.error (.unique [("email", "Email '" ++ e ++ "' already exists")]), st) := by
  obtain ⟨r1, hr1⟩ : ∃ r1, st.rows.find? (fun r => sqlEqVal (.str e) r.email) = some r1 := by
    rw [← Option.isSome_iff_exists, List.find?_isSome]
    exact ⟨r0, hr0, by simp [sqlEqVal, hre]⟩
  simp only [create_employee, hv, Bool.not_true, Bool.false_eq_true, if_false, he, hr1]
  rfl

/-- Witness for C1: a one-row store and a second request re-using the email. -/
theorem create_duplicate_email_unique_error_witness :
    (validate_employee_data ⟨some (.str "Ann"), some (.str "Lee"), some (.str "j@d.co"),
        some (.str "QA"), some (.num 90)⟩).1 = true ∧
    create_employee ⟨some (.str "Ann"), some (.str "Lee"), some (.str "j@d.co"),
        some (.str "QA"), some (.num 90)⟩
      ⟨[⟨1, "John", "Doe", "j@d.co", "Dev", 100, "t0"⟩], 2, "t1"⟩ =
      (.error (.unique [("email", "Email '" ++ "j@d.co" ++ "' already exists")]),
       ⟨[⟨1, "John", "Doe", "j@d.co", "Dev", 100, "t0"⟩], 2, "t1"⟩) :=
  ⟨by decide,
   create_duplicate_email_unique_error _ _ "j@d.co" (by decide) rfl
     ⟨1, "John", "Doe", "j@d.co", "Dev", 100, "t0"⟩ (by decide) rfl⟩

/-- C7: deleting a persisted id removes that employee and returns a
confirmation carrying the id and a message naming the employee's first and
last name; a subsequent get of the id raises NotFoundError; deleting a
nonexistent id raises NotFoundError and leaves the store unchanged. -/
theorem delete_then_get (st : DBState) (A : Row) (j : Nat)
    (hWF : WF st) (hA : A ∈ st.rows) (hj : ∀ r ∈ st.rows, r.id ≠ j) :
    delete_employee A.id st =
      (.ok ⟨A.id, "Employee " ++ A.first_name ++ " " ++ A.last_name ++
          " deleted successfully"⟩,
       { st with rows := st.rows.filter (fun r => r.id != A.id) }) ∧
    (get_employee_by_id A.id
        { st with rows := st.rows.filter (fun r => r.id != A.id) }).1 =
      .error (.notFound ("Employee with id " ++ toString A.id ++ " not found")) ∧
    delete_employee j st =
      (.error (.notFound ("Employee with id " ++ toString j ++ " not found")), st) := by
  refine ⟨?_, ?_, ?_⟩
  · simp only [delete_employee, get_employee_by_id, find_by_id hWF.1 hA]
    rfl
  · have hnone : (st.rows.filter (fun r => r.id != A.id)).find?
        (fun r => r.id = A.id) = Option.none := by
      rw [List.find?_eq_none]
      intro r hr
      have := (List.mem_filter.mp hr).2
      simp only [bne_iff_ne, ne_eq] at this
      simpa using this
    simp only [get_employee_by_id, hnone]
  · have hnone : st.rows.find? (fun r => r.id = j) = Option.none := by
      rw [List.find?_eq_none]
      intro r hr
      simpa using hj r hr
    simp only [delete_employee, get_employee_by_id, hnone]

/-- Witness for C7: a two-row store, deleting id 1 and probing id 9. -/
theorem delete_then_get_witness :
    WF ⟨[⟨1, "John", "Doe", "j@d.co", "Dev", 100, "t0"⟩,
         ⟨2, "Ann", "Lee", "a@d.co", "QA", 90, "t0"⟩], 3, "t1"⟩ ∧
    delete_employee 1 ⟨[⟨1, "John", "Doe", "j@d.co", "Dev", 100, "t0"⟩,
         ⟨2, "Ann", "Lee", "a@d.co", "QA", 90, "t0"⟩], 3, "t1"⟩ =
      (.ok ⟨1, "Employee " ++ "John" ++ " " ++ "Doe" ++ " deleted successfully"⟩,
       { rows := [⟨1, "John", "Doe", "j@d.co", "Dev", 100, "t0"⟩,
           ⟨2, "Ann", "Lee", "a@d.co", "QA", 90, "t0"⟩].filter (fun r => r.id != 1),
         nextId := 3, now := "t1" }) ∧
    (get_employee_by_id 1
        { rows := [⟨1, "John", "Doe", "j@d.co", "Dev", 100, "t0"⟩,
            ⟨2, "Ann", "Lee", "a@d.co", "QA", 90, "t0"⟩].filter (fun r => r.id != 1),
          nextId := 3, now := "t1" }).1 =
      .error (.notFound ("Employee with id " ++ toString 1 ++ " not found")) ∧
    delete_employee 9 ⟨[⟨1, "John", "Doe", "j@d.co", "Dev", 100, "t0"⟩,
         ⟨2, "Ann", "Lee", "a@d.co", "QA", 90, "t0"⟩], 3, "t1"⟩ =
      (.error (.notFound ("Employee with id " ++ toString 9 ++ " not found")),
       ⟨[⟨1, "John", "Doe", "j@d.co", "Dev", 100, "t0"⟩,
         ⟨2, "Ann", "Lee", "a@d.co", "QA", 90, "t0"⟩], 3, "t1"⟩) :=
  ⟨by decide,
   delete_then_get _ ⟨1, "John", "Doe", "j@d.co", "Dev", 100, "t0"⟩ 9
     (by decide) (by decide) (by decide)⟩

/-- Both employees of a page carry populated ids in ascending order. -/
def IdAsc (a b : Employee) : Prop :=
  ∃ m n, a.id = some m ∧ b.id = some n ∧ m ≤ n

/-- C9: over a store of four employees, the pages `list(limit=2, offset=0)`
and `list(limit=2, offset=2)` concatenate to the whole id-sorted table:
together they cover all four employees (a permutation of the store), each
page has two entries in ascending id order, and the pages are disjoint. -/
theorem pagination_pages (st : DBState) (hWF : WF st) (h4 : st.rows.length = 4) :
    get_all_employees 2 0 st ++ get_all_employees 2 2 st =
      (sortRows st.rows).map Employee.fromRow ∧
    List.Perm (get_all_employees 2 0 st ++ get_all_employees 2 2 st)
      (st.rows.map Employee.fromRow) ∧
    (get_all_employees 2 0 st).length = 2 ∧
    (get_all_employees 2 2 st).length = 2 ∧
    (get_all_employees 2 0 st).Pairwise IdAsc ∧
    (get_all_employees 2 2 st).Pairwise IdAsc ∧
    (get_all_employees 2 0 st).Disjoint (get_all_employees 2 2 st) := by
  have hp1 : get_all_employees 2 0 st = ((sortRows st.rows).take 2).map Employee.fromRow := by
    simp [get_all_employees]
  have hp2 : get_all_employees 2 2 st =
      (((sortRows st.rows).drop 2).take 2).map Employee.fromRow := by
    simp [get_all_employees]
  have hlen : (sortRows st.rows).length = 4 := by rw [sortRows_length, h4]
  have hsplit : (sortRows st.rows).take 2 ++ ((sortRows st.rows).drop 2).take 2 =
      sortRows st.rows := by
    have := (List.take_add (sortRows st.rows) 2 2).symm
    rw [show (2 + 2 : Nat) = 4 from rfl] at this
    rw [this, ← hlen, List.take_length]
  have hcat : get_all_employees 2 0 st ++ get_all_employees 2 2 st =
      (sortRows st.rows).map Employee.fromRow := by
    rw [hp1, hp2, ← List.map_append, hsplit]
  have hsorted := sortRows_sorted st.rows
  have hascRow : ∀ l2 : List Row, List.Sublist l2 (sortRows st.rows) →
      (l2.map Employee.fromRow).Pairwise IdAsc := by
    intro l2 hsub
    refine List.Pairwise.map Employee.fromRow ?_ (List.Pairwise.sublist hsub hsorted)
    intro a b hab
    exact ⟨a.id, b.id, rfl, rfl, hab⟩
  have hnodupS : (sortRows st.rows).Nodup :=
    List.Nodup.of_map Row.id
      (((sortRows_perm st.rows).map Row.id).nodup_iff.mpr hWF.1)
  have hdisjRows : ∀ a ∈ (sortRows st.rows).take 2,
      a ∈ (sortRows st.rows).drop 2 → False := by
    have := List.nodup_append.mp
      ((List.take_append_drop 2 (sortRows st.rows)).symm ▸ hnodupS)
    exact fun a ha hb => this.2.2 ha hb
  refine ⟨hcat, ?_, ?_, ?_, ?_, ?_, ?_⟩
  · rw [hcat]
    exact (sortRows_perm st.rows).map Employee.fromRow
  · rw [hp1, List.length_map, List.length_take, hlen]
    rfl
  · rw [hp2, List.length_map, List.length_take, List.length_drop, hlen]
    rfl
  · rw [hp1]
    exact hascRow _ (List.take_sublist 2 _)
  · rw [hp2]
    exact hascRow _ ((List.take_sublist 2 _).trans (List.drop_sublist 2 _))
  · rw [hp1, hp2]
    intro e he1 he2
    obtain ⟨a, ha, rfl⟩ := List.mem_map.mp he1
    obtain ⟨b, hb, hba⟩ := List.mem_map.mp he2
    have hab : a = b := by
      have hid : a.id = b.id := by
        have := congrArg Employee.id hba
        simpa [Employee.fromRow] using this.symm
      exact List.inj_on_of_nodup_map
        (((sortRows_perm st.rows).map Row.id).nodup_iff.mpr hWF.1)
        (List.mem_of_mem_take ha)
        (List.Sublist.mem (List.mem_of_mem_take hb) (List.drop_sublist 2 _)) hid
    exact hdisjRows a ha (hab ▸ (List.mem_of_mem_take hb))

/-- Witness for C9 over four seeded employees with shuffled ids. -/
theorem pagination_pages_witness :
    WF ⟨[⟨3, "C", "C", "c@x.co", "P", 3, "t"⟩, ⟨1, "A", "A", "a@x.co", "P", 1, "t"⟩,
         ⟨4, "D", "D", "d@x.co", "P", 4, "t"⟩, ⟨2, "B", "B", "b@x.co", "P", 2, "t"⟩],
        5, "t"⟩ ∧
    get_all_employees 2 0 ⟨[⟨3, "C", "C", "c@x.co", "P", 3, "t"⟩,
        ⟨1, "A", "A", "a@x.co", "P", 1, "t"⟩, ⟨4, "D", "D", "d@x.co", "P", 4, "t"⟩,
        ⟨2, "B", "B", "b@x.co", "P", 2, "t"⟩], 5, "t"⟩ ++
      get_all_employees 2 2 ⟨[⟨3, "C", "C", "c@x.co", "P", 3, "t"⟩,
        ⟨1, "A", "A", "a@x.co", "P", 1, "t"⟩, ⟨4, "D", "D", "d@x.co", "P", 4, "t"⟩,
        ⟨2, "B", "B", "b@x.co", "P", 2, "t"⟩], 5, "t"⟩ =
      (sortRows [⟨3, "C", "C", "c@x.co", "P", 3, "t"⟩, ⟨1, "A", "A", "a@x.co", "P", 1, "t"⟩,
        ⟨4, "D", "D", "d@x.co", "P", 4, "t"⟩,
        ⟨2, "B", "B", "b@x.co", "P", 2, "t"⟩]).map Employee.fromRow ∧
    (get_all_employees 2 0 ⟨[⟨3, "C", "C", "c@x.co", "P", 3, "t"⟩,
        ⟨1, "A", "A", "a@x.co", "P", 1, "t"⟩, ⟨4, "D", "D", "d@x.co", "P", 4, "t"⟩,
        ⟨2, "B", "B", "b@x.co", "P", 2, "t"⟩], 5, "t"⟩).Disjoint
      (get_all_employees 2 2 ⟨[⟨3, "C", "C", "c@x.co", "P", 3, "t"⟩,
        ⟨1, "A", "A", "a@x.co", "P", 1, "t"⟩, ⟨4, "D", "D", "d@x.co", "P", 4, "t"⟩,
        ⟨2, "B", "B", "b@x.co", "P", 2, "t"⟩], 5, "t"⟩) := by
  have h := pagination_pages ⟨[⟨3, "C", "C", "c@x.co", "P", 3, "t"⟩,
    ⟨1, "A", "A", "a@x.co", "P", 1, "t"⟩, ⟨4, "D", "D", "d@x.co", "P", 4, "t"⟩,
    ⟨2, "B", "B", "b@x.co", "P", 2, "t"⟩], 5, "t"⟩ (by decide) (by decide)
  exact ⟨by decide, h.1, h.2.2.2.2.2.2⟩

/-- C2: a partial update supplying only a valid non-blank `position`
succeeds; the merged candidate (the existing values overlaid with the new
position) passes full validation, and afterwards only the employee's
`position` column differs — the update statement touches only the rows with
the given id and only the supplied column, and the returned entity carries
the old `first_name`, `last_name`, `email`, `salary`, `id` and
`created_at`. -/
theorem update_position_only_frame (st : DBState) (A : Row) (s : String)
    (hWF : WF st) (hA : A ∈ st.rows) (h1 : s ≠ "") (h2 : pyStripStr s ≠ "") :
    validate_employee_data ⟨some (.str A.first_name), some (.str A.last_name),
        some (.str A.email), some (.str s), some (.num A.salary)⟩ = (true, []) ∧
    update_employee A.id ⟨Option.none, Option.none, Option.none, some (.str s),
        Option.none⟩ st =
      (.ok (Employee.fromRow { A with position := pyStripStr s }),
       { st with rows := st.rows.map (fun r =>
           if r.id = A.id then { r with position := pyStripStr s } else r) }) := by
  obtain ⟨hids, hemails, hlt, hvalid⟩ := hWF
  obtain ⟨ha1, ha2, ha3, ha4, ha5, ha6, ha7, ha8, haS, ha9, ha10⟩ := hvalid A hA
  have hval := validate_merged_pass ha1 ha2 ha3 ha4 ha7 ha8 ha9 h1 h2 ha10
  refine ⟨hval, ?_⟩
  have hg : ∀ r : Row,
      ((fun r => if r.id = A.id then { r with position := pyStripStr s } else r) r).id
        = r.id := by
    intro r
    by_cases h : r.id = A.id <;> simp [h]
  simp only [update_employee, get_employee_by_id, find_by_id hids hA,
    Employee.fromRow, Option.getD_none, Option.getD_some, hval, Bool.not_true,
    Bool.false_eq_true, if_false, stripUpd, floatUpd, Option.isSome_none,
    Option.isSome_some, Bool.or_true, Bool.true_or, Bool.or_false, Bool.false_or,
    if_true]
  rw [find?_map_of_id hg, find_by_id hids hA]
  simp

/-- Witness for C2 on a one-row store. -/
theorem update_position_only_frame_witness :
    WF ⟨[⟨1, "John", "Doe", "j@d.co", "Dev", 100, "t0"⟩], 2, "t1"⟩ ∧
    update_employee 1 ⟨Option.none, Option.none, Option.none, some (.str "Manager"),
        Option.none⟩ ⟨[⟨1, "John", "Doe", "j@d.co", "Dev", 100, "t0"⟩], 2, "t1"⟩ =
      (.ok (Employee.fromRow { (⟨1, "John", "Doe", "j@d.co", "Dev", 100, "t0"⟩ : Row)
          with position := pyStripStr "Manager" }),
       { rows := [⟨1, "John", "Doe", "j@d.co", "Dev", 100, "t0"⟩].map (fun r =>
           if r.id = (⟨1, "John", "Doe", "j@d.co", "Dev", 100, "t0"⟩ : Row).id
           then { r with position := pyStripStr "Manager" } else r),
         nextId := 2, now := "t1" }) :=
  ⟨by decide,
   (update_position_only_frame ⟨[⟨1, "John", "Doe", "j@d.co", "Dev", 100, "t0"⟩], 2, "t1"⟩
     ⟨1, "John", "Doe", "j@d.co", "Dev", 100, "t0"⟩ "Manager"
     (by decide) (by decide) (by decide) (by decide)).2⟩

/-- C6: updating employee A's email to employee B's persisted email fails
with UniqueConstraintError and leaves the store — A's record included —
unchanged; the uniqueness check excludes A's own id, so re-submitting A's
current email raises no conflict and the update succeeds. -/
theorem update_email_conflict (st : DBState) (A B : Row)
    (hWF : WF st) (hA : A ∈ st.rows) (hB : B ∈ st.rows) (hAB : A.id ≠ B.id) :
    update_employee A.id ⟨Option.none, Option.none, some (.str B.email), Option.none,
        Option.none⟩ st =
      (.error (.unique [("email", "Email '" ++ B.email ++ "' already exists")]), st) ∧
    update_employee A.id ⟨Option.none, Option.none, some (.str A.email), Option.none,
        Option.none⟩ st =
      (.ok (Employee.fromRow { A with email := pyStripStr A.email }),
       { st with rows := st.rows.map (fun r =>
           if r.id = A.id then { r with email := pyStripStr A.email } else r) }) := by
  obtain ⟨hids, hemails, hlt, hvalid⟩ := hWF
  obtain ⟨ha1, ha2, ha3, ha4, ha5, ha6, ha7, ha8, haS, ha9, ha10⟩ := hvalid A hA
  obtain ⟨hb1, hb2, hb3, hb4, hb5, hb6, hb7, hb8, hbS, hb9, hb10⟩ := hvalid B hB
  have hne : B.email ≠ A.email := by
    intro he
    exact hAB (congrArg Row.id (List.inj_on_of_nodup_map hemails hB hA he)).symm
  constructor
  · have hval := validate_merged_pass ha1 ha2 ha3 ha4 hb7 hb8 hb9 ha5 ha6 ha10
    obtain ⟨r1, hr1⟩ : ∃ r1, st.rows.find?
        (fun r => sqlEqVal (.str B.email) r.email && r.id != A.id) = some r1 := by
      rw [← Option.isSome_iff_exists, List.find?_isSome]
      refine ⟨B, hB, ?_⟩
      simp [sqlEqVal, bne_iff_ne, hAB]
      exact fun h => hAB h.symm
    simp only [update_employee, get_employee_by_id, find_by_id hids hA,
      Employee.fromRow, Option.getD_none, Option.getD_some, hval, Bool.not_true,
      Bool.false_eq_true, if_false]
    rw [if_pos (by simp [pyNeqStr, hne]), hr1]
    rfl
  · have hval := validate_merged_pass ha1 ha2 ha3 ha4 ha7 ha8 ha9 ha5 ha6 ha10
    have hg : ∀ r : Row,
        ((fun r => if r.id = A.id then { r with email := pyStripStr A.email } else r) r).id
          = r.id := by
      intro r
      by_cases h : r.id = A.id <;> simp [h]
    simp only [update_employee, get_employee_by_id, find_by_id hids hA,
      Employee.fromRow, Option.getD_none, Option.getD_some, hval, Bool.not_true,
      Bool.false_eq_true, if_false, stripUpd, floatUpd, Option.isSome_none,
      Option.isSome_some, Bool.or_true, Bool.true_or, Bool.or_false, Bool.false_or,
      if_true]
    rw [if_neg (by simp [pyNeqStr])]
    rw [find?_map_of_id hg, find_by_id hids hA]
    simp
    intro x hx he
    rw [haS] at he
    exact congrArg Row.id (List.inj_on_of_nodup_map hemails hx hA he)

/-- Witness for C6 on a two-row store. -/
theorem update_email_conflict_witness :
    WF ⟨[⟨1, "John", "Doe", "j@d.co", "Dev", 100, "t0"⟩,
         ⟨2, "Ann", "Lee", "a@d.co", "QA", 90, "t0"⟩], 3, "t1"⟩ ∧
    update_employee 1 ⟨Option.none, Option.none, some (.str "a@d.co"), Option.none,
        Option.none⟩ ⟨[⟨1, "John", "Doe", "j@d.co", "Dev", 100, "t0"⟩,
         ⟨2, "Ann", "Lee", "a@d.co", "QA", 90, "t0"⟩], 3, "t1"⟩ =
      (.error (.unique [("email", "Email '" ++ "a@d.co" ++ "' already exists")]),
       ⟨[⟨1, "John", "Doe", "j@d.co", "Dev", 100, "t0"⟩,
         ⟨2, "Ann", "Lee", "a@d.co", "QA", 90, "t0"⟩], 3, "t1"⟩) :=
  ⟨by decide,
   (update_email_conflict ⟨[⟨1, "John", "Doe", "j@d.co", "Dev", 100, "t0"⟩,
       ⟨2, "Ann", "Lee", "a@d.co", "QA", 90, "t0"⟩], 3, "t1"⟩
     ⟨1, "John", "Doe", "j@d.co", "Dev", 100, "t0"⟩
     ⟨2, "Ann", "Lee", "a@d.co", "QA", 90, "t0"⟩
     (by decide) (by decide) (by decide) (by decide)).1⟩

/-- C4, counterexample: `create_employee` stores the trimmed field values,
so fetching the created record does not return the raw input: a first name
" John " comes back as "John".  (A string salary is likewise converted by
`float`.)  The round-trip equality claimed over every valid input fails. -/
theorem create_roundtrip_counterexample :
    ((create_employee ⟨some (.str " John "), some (.str "Doe"), some (.str "j@d.co"),
        some (.str "Dev"), some (.num 100)⟩ ⟨[], 1, "t0"⟩).1.toOption.map
      Employee.first_name) = some "John" ∧ ("John" : String) ≠ " John " :=
  ⟨by decide, by decide⟩

/-- Row inserted by a successful create: stripped text fields, parsed
salary, the next auto-increment id, the current timestamp. -/
def insertedRow (st : DBState) (fn ln em pos : String) (q : ℚ) : Row :=
  ⟨st.nextId, pyStripStr fn, pyStripStr ln, pyStripStr em, pyStripStr pos, q, st.now⟩

/-- C4, amended: creating with valid fields and an email fresh both as
submitted (the service's raw pre-check) and after trimming (the store's
UNIQUE constraint on the inserted value) succeeds, and fetching the
returned id yields the created record, whose user-supplied fields equal
the input after trimming the string fields and numerically parsing the
salary (verbatim equality holds when the inputs carry no surrounding
whitespace and the salary is numeric); `id` and `created_at` are
populated.  Without the trimmed-freshness proviso the insert itself can
collide (e.g. a trailing-newline email passing the regex) and raises the
store's IntegrityError instead, creating nothing. -/
theorem create_roundtrip_trimmed (st : DBState) (d : Input)
    (fn ln em pos : String) (sv : Value) (q : ℚ)
    (hWF : WF st)
    (hfn : d.first_name = some (.str fn)) (hln : d.last_name = some (.str ln))
    (hem : d.email = some (.str em)) (hpos : d.position = some (.str pos))
    (hsal : d.salary = some sv)
    (hv : (validate_employee_data d).1 = true)
    (hq : pyFloat sv = some q)
    (hdup : ∀ r ∈ st.rows, r.email ≠ em)
    (hdup2 : ∀ r ∈ st.rows, r.email ≠ pyStripStr em) :
    create_employee d st =
      (.ok (Employee.fromRow (insertedRow st fn ln em pos q)),
       { st with rows := st.rows ++ [insertedRow st fn ln em pos q],
                 nextId := st.nextId + 1 }) ∧
    (get_employee_by_id st.nextId
        { st with rows := st.rows ++ [insertedRow st fn ln em pos q],
                  nextId := st.nextId + 1 }).1 =
      .ok (Employee.fromRow (insertedRow st fn ln em pos q)) ∧
    (Employee.fromRow (insertedRow st fn ln em pos q)).id = some st.nextId ∧
    (Employee.fromRow (insertedRow st fn ln em pos q)).created_at = some st.now := by
  have hfind : st.rows.find? (fun r => sqlEqVal (.str em) r.email) = Option.none := by
    rw [List.find?_eq_none]
    intro r hr
    simp only [sqlEqVal, decide_eq_true_eq]
    exact fun h => hdup r hr h.symm
  have hnone1 : st.rows.find? (fun r => r.id = st.nextId) = Option.none := by
    rw [List.find?_eq_none]
    intro r hr
    have := hWF.2.2.1 r hr
    simp only [decide_eq_true_eq]
    omega
  have hget : (st.rows ++ [insertedRow st fn ln em pos q]).find?
      (fun r => r.id = st.nextId) = some (insertedRow st fn ln em pos q) := by
    rw [find?_append_right hnone1]
    exact List.find?_cons_of_pos _ (by simp [insertedRow])
  have hany : (st.rows.any fun r => decide (r.email = pyStripStr em)) = false := by
    rw [List.any_eq_false]
    intro r hr
    simp only [decide_eq_true_eq]
    exact hdup2 r hr
  refine ⟨?_, ?_, rfl, rfl⟩
  · simp only [create_employee, hv, Bool.not_true, Bool.false_eq_true, if_false,
      hfn, hln, hem, hpos, hsal, hfind, stripField, floatField, hq,
      get_employee_by_id]
    rw [show (⟨st.nextId, pyStripStr fn, pyStripStr ln, pyStripStr em, pyStripStr pos,
          q, st.now⟩ : Row) = insertedRow st fn ln em pos q from rfl, hget, hany]
    rfl
  · simp only [get_employee_by_id, hget]

/-- Witness for the amended C4: creating into an empty store and
re-fetching id 1. -/
theorem create_roundtrip_trimmed_witness :
    (validate_employee_data ⟨some (.str " John "), some (.str "Doe"),
        some (.str "j@d.co"), some (.str "Dev"), some (.num 100)⟩).1 = true ∧
    create_employee ⟨some (.str " John "), some (.str "Doe"), some (.str "j@d.co"),
        some (.str "Dev"), some (.num 100)⟩ ⟨[], 1, "t0"⟩ =
      (.ok (Employee.fromRow (insertedRow ⟨[], 1, "t0"⟩ " John " "Doe" "j@d.co" "Dev" 100)),
       { rows := ([] : List Row) ++ [insertedRow ⟨[], 1, "t0"⟩ " John " "Doe" "j@d.co" "Dev" 100],
         nextId := 1 + 1, now := "t0" }) ∧
    (Employee.fromRow (insertedRow ⟨[], 1, "t0"⟩ " John " "Doe" "j@d.co" "Dev" 100)).id =
      some 1 ∧
    (Employee.fromRow (insertedRow ⟨[], 1, "t0"⟩ " John " "Doe" "j@d.co" "Dev" 100)).created_at =
      some "t0" := by
  have h := create_roundtrip_trimmed ⟨[], 1, "t0"⟩
    ⟨some (.str " John "), some (.str "Doe"), some (.str "j@d.co"), some (.str "Dev"),
     some (.num 100)⟩ " John " "Doe" "j@d.co" "Dev" (.num 100) 100
    (by decide) rfl rfl rfl rfl rfl (by decide) rfl (by decide) (by decide)
  exact ⟨by decide, h.1, h.2.2.1, h.2.2.2⟩

/-- Faithfulness of the insert path to the store's UNIQUE(email)
constraint: the raw email "a@b.co\n" passes the anchored regex (the final
newline sits after the match, before `$`) and differs from the persisted
"a@b.co", so validation and the raw duplicate pre-check both pass — but the
INSERT of the stripped "a@b.co" violates the schema's unique constraint:
the gateway failure escapes and nothing is created. -/
theorem create_newline_email_integrity_error :
    create_employee ⟨some (.str "Ann"), some (.str "Lee"), some (.str "a@b.co\n"),
        some (.str "QA"), some (.num 90)⟩
      ⟨[⟨1, "John", "Doe", "a@b.co", "Dev", 100, "t0"⟩], 2, "t1"⟩ =
      (.error .storage,
       ⟨[⟨1, "John", "Doe", "a@b.co", "Dev", 100, "t0"⟩], 2, "t1"⟩) := by
  rfl

/-- Faithfulness of the update path to the store's UNIQUE(email)
constraint: updating employee 2's email to the raw "a@b.co\n" passes
validation and the id-excluding raw pre-check, but the UPDATE writes the
stripped "a@b.co", colliding with employee 1: the gateway failure escapes
and nothing is written. -/
theorem update_newline_email_integrity_error :
    update_employee 2 ⟨Option.none, Option.none, some (.str "a@b.co\n"), Option.none,
        Option.none⟩
      ⟨[⟨1, "John", "Doe", "a@b.co", "Dev", 100, "t0"⟩,
        ⟨2, "Ann", "Lee", "x@y.co", "QA", 90, "t0"⟩], 3, "t1"⟩ =
      (.error .storage,
       ⟨[⟨1, "John", "Doe", "a@b.co", "Dev", 100, "t0"⟩,
         ⟨2, "Ann", "Lee", "x@y.co", "QA", 90, "t0"⟩], 3, "t1"⟩) := by
  rfl

/-- Classification of a service outcome: success, one of the three domain
errors, or a storage failure propagated from the gateway (which the claim
explicitly allows) — everything except an escaped Python-level coercion
failure. -/
def DomainOutcome {α : Type} : Except Err α → Prop
  | .ok _ => True
  | .error (.validation _) => True
  | .error (.notFound _) => True
  | .error (.unique _) => True
  | .error .storage => True
  | .error .typeError => False

/-- Fetching by id always yields an employee or NotFoundError. -/
theorem get_domain (i : Nat) (st : DBState) : DomainOutcome (get_employee_by_id i st).1 := by
  unfold get_employee_by_id
  cases hf : st.rows.find? (fun r => r.id = i) <;> simp only [hf] <;> trivial

/-- C8, counterexample: a numeric (hence truthy, non-string) `first_name`
passes validation, and `create_employee` then fails at
`data["first_name"].strip()` with an AttributeError — a coercion failure
that is none of the three domain errors and is not a storage failure. -/
theorem service_error_kinds_counterexample :
    (create_employee ⟨some (.num 5), some (.str "Doe"), some (.str "j@d.co"),
        some (.str "Dev"), some (.num 100)⟩ ⟨[], 1, "t0"⟩).1 =
      .error .typeError ∧
    ¬ DomainOutcome (create_employee ⟨some (.num 5), some (.str "Doe"),
        some (.str "j@d.co"), some (.str "Dev"), some (.num 100)⟩ ⟨[], 1, "t0"⟩).1 :=
  ⟨rfl, fun h => h⟩

/-- C8, amended: provided every supplied text field is a string value,
`create_employee` and `update_employee` return an employee or raise exactly
one of ValidationError, NotFoundError or UniqueConstraintError (storage in
the model is pure, so gateway failures do not arise).  Without that
proviso, a truthy non-string text field passes validation and the
subsequent `.strip()` raises a coercion error that escapes the service
layer, as the counterexample shows. -/
theorem service_error_kinds_for_string_fields (d : Input) (st : DBState) (i : Nat)
    (hfn : ∀ v, d.first_name = some v → ∃ t, v = Value.str t)
    (hln : ∀ v, d.last_name = some v → ∃ t, v = Value.str t)
    (hem : ∀ v, d.email = some v → ∃ t, v = Value.str t)
    (hpos : ∀ v, d.position = some v → ∃ t, v = Value.str t) :
    DomainOutcome (create_employee d st).1 ∧
    DomainOutcome (update_employee i d st).1 := by
  constructor
  · cases hv : (validate_employee_data d).1 with
    | false =>
      simp only [create_employee, hv, Bool.not_false, if_true]
      trivial
    | true =>
      obtain ⟨p1, p2, p3, p4, p5, p6⟩ := validate_true_parts hv
      obtain ⟨vfn, hvfn, -⟩ := vrf_pass_isSome p1
      obtain ⟨tfn, rfl⟩ := hfn vfn hvfn
      obtain ⟨vln, hvln, -⟩ := vrf_pass_isSome p2
      obtain ⟨tln, rfl⟩ := hln vln hvln
      obtain ⟨vem, hvem, -⟩ := vrf_pass_isSome p3
      obtain ⟨tem, rfl⟩ := hem vem hvem
      obtain ⟨vpos, hvpos, -⟩ := vrf_pass_isSome p4
      obtain ⟨tpos, rfl⟩ := hpos vpos hvpos
      obtain ⟨vs, hvs, hvsne⟩ := vrf_pass_isSome p5
      obtain ⟨q, hq⟩ := validate_salary_pass_float (p6 vs hvs hvsne)
      simp only [create_employee, hv, Bool.not_true, Bool.false_eq_true, if_false,
        hvfn, hvln, hvem, hvpos, hvs, stripField, floatField, hq]
      cases hf : st.rows.find? (fun r => sqlEqVal (.str tem) r.email) with
      | some r =>
        simp only [hf]
        trivial
      | none =>
        simp only [hf]
        split
        · trivial
        · exact get_domain _ _
  · cases hg : st.rows.find? (fun r => r.id = i) with
    | none =>
      simp only [update_employee, get_employee_by_id, hg]
      trivial
    | some A =>
      simp only [update_employee, get_employee_by_id, hg, Employee.fromRow]
      cases hv : (validate_employee_data
          ⟨some (d.first_name.getD (.str A.first_name)),
           some (d.last_name.getD (.str A.last_name)),
           some (d.email.getD (.str A.email)),
           some (d.position.getD (.str A.position)),
           some (d.salary.getD (.num A.salary))⟩).1 with
      | false =>
        simp only [hv, Bool.not_false, if_true]
        trivial
      | true =>
        obtain ⟨p1, p2, p3, p4, p5, p6⟩ := validate_true_parts hv
        have hsfn : ∃ o, stripUpd d.first_name = some o := by
          cases hdf : d.first_name with
          | none => exact ⟨Option.none, rfl⟩
          | some v =>
            obtain ⟨t, rfl⟩ := hfn v hdf
            exact ⟨some (pyStripStr t), rfl⟩
        have hsln : ∃ o, stripUpd d.last_name = some o := by
          cases hdf : d.last_name with
          | none => exact ⟨Option.none, rfl⟩
          | some v =>
            obtain ⟨t, rfl⟩ := hln v hdf
            exact ⟨some (pyStripStr t), rfl⟩
        have hsem : ∃ o, stripUpd d.email = some o := by
          cases hdf : d.email with
          | none => exact ⟨Option.none, rfl⟩
          | some v =>
            obtain ⟨t, rfl⟩ := hem v hdf
            exact ⟨some (pyStripStr t), rfl⟩
        have hspos : ∃ o, stripUpd d.position = some o := by
          cases hdf : d.position with
          | none => exact ⟨Option.none, rfl⟩
          | some v =>
            obtain ⟨t, rfl⟩ := hpos v hdf
            exact ⟨some (pyStripStr t), rfl⟩
        have hssal : ∃ o, floatUpd d.salary = some o := by
          cases hdf : d.salary with
          | none => exact ⟨Option.none, rfl⟩
          | some v =>
            have hvne : v ≠ Value.none := by
              obtain ⟨w, hw, hwne⟩ := vrf_pass_isSome p5
              rw [hdf] at hw
              simp only [Option.getD_some] at hw
              rw [Option.some.injEq] at hw
              rw [← hw] at hwne
              exact hwne
            have hpass : (validate_salary v).1 = true := by
              refine p6 v ?_ hvne
              rw [hdf]
              rfl
            obtain ⟨q, hq⟩ := validate_salary_pass_float hpass
            exact ⟨some q, by simp [floatUpd, hq]⟩
        obtain ⟨ofn, hofn⟩ := hsfn
        obtain ⟨oln, holn⟩ := hsln
        obtain ⟨oem, hoem⟩ := hsem
        obtain ⟨opos, hopos⟩ := hspos
        obtain ⟨osal, hosal⟩ := hssal
        simp only [hv, Bool.not_true, Bool.false_eq_true, if_false, hofn, holn,
          hoem, hopos, hosal]
        cases hde : d.email with
        | none =>
          simp only [hde] at hoem ⊢
          repeat' split
          all_goals trivial
        | some ev =>
          simp only [hde] at hoem ⊢
          by_cases hneq : pyNeqStr ev A.email = true
          · rw [if_pos hneq]
            cases hfd : st.rows.find?
                (fun r => sqlEqVal ev r.email && r.id != i) with
            | some r =>
              simp only [hfd]
              trivial
            | none =>
              simp only [hfd]
              repeat' split
              all_goals trivial
          · rw [if_neg hneq]
            repeat' split
            all_goals trivial

/-- Witness for the amended C8 on a concrete all-string request against an
empty store. -/
theorem service_error_kinds_for_string_fields_witness :
    DomainOutcome (create_employee ⟨some (.str "John"), some (.str "Doe"),
        some (.str "j@d.co"), some (.str "Dev"), some (.num 100)⟩ ⟨[], 1, "t0"⟩).1 ∧
    DomainOutcome (update_employee 7 ⟨some (.str "John"), some (.str "Doe"),
        some (.str "j@d.co"), some (.str "Dev"), some (.num 100)⟩ ⟨[], 1, "t0"⟩).1 :=
  service_error_kinds_for_string_fields _ _ 7
    (fun v hv => ⟨"John", by cases hv; rfl⟩)
    (fun v hv => ⟨"Doe", by cases hv; rfl⟩)
    (fun v hv => ⟨"j@d.co", by cases hv; rfl⟩)
    (fun v hv => ⟨"Dev", by cases hv; rfl⟩)

end Crud
